import Mathlib

/-!
Verification of the data-access layer of the TweetsApi repository
(`src/application/models/crud.py`, schema from
`src/application/models/_models.py`, upload validation from
`src/application/dependencies.py`).

The database is embedded as explicit lists of rows, one list per table,
together with the auto-increment counters the backend maintains for the
integer primary keys.  Each `CrudController` method becomes a pure
function from a database state (plus its arguments) to a new state and
the method's return value.  A commit that the backend would reject with
an `IntegrityError` (duplicate primary key, or a foreign key referencing
a missing row — the schema declares foreign keys on every reference
column and the repository's tests rely on their enforcement) is modelled
by the rollback behaviour of the corresponding `except IntegrityError`
handler where the source has one, and by an exceptional (`none`) result
where the source lets the error escape.
-/

namespace TweetsApi

/-- Row of the `users` table (`_models.py`, class `User`). -/
structure User where
  id : Nat
  name : String
  keyId : Option Nat
deriving Repr, DecidableEq

/-- Row of the `subscribes` table (`_models.py`, class `Subscribe`);
composite primary key `(follower_id, author_id)`, both foreign keys into
`users`. -/
structure Subscribe where
  followerId : Nat
  authorId : Nat
deriving Repr, DecidableEq

/-- Row of the `likes` table (`_models.py`, class `Like`); composite
primary key `(user_id, tweet_id)`, foreign keys into `users` and
`tweets`. -/
structure Like where
  userId : Nat
  tweetId : Nat
deriving Repr, DecidableEq

/-- Row of the `tweets` table (`_models.py`, class `Tweet`). -/
structure Tweet where
  id : Nat
  content : String
  authorId : Nat
deriving Repr, DecidableEq

/-- Row of the `medias` table (`_models.py`, class `Media`);
`tweet_id` is nullable and carries `ondelete="CASCADE"`. -/
structure Media where
  id : Nat
  fileType : String
  userId : Nat
  tweetId : Option Nat
deriving Repr, DecidableEq

/-- The database state: one list per table, in insertion order, plus the
auto-increment counters for the generated integer primary keys and the
set of stored media files (named `{media_id}.{file_type}`, relative to
the configured media directory). -/
structure DB where
  users : List User
  tweets : List Tweet
  medias : List Media
  likes : List Like
  subscribes : List Subscribe
  nextUserId : Nat
  nextTweetId : Nat
  nextMediaId : Nat
  files : List String
deriving Repr, DecidableEq

/-- The relevant application settings (`settings.py` / the fields of
`SETTINGS` that the data-access layer reads). -/
structure Settings where
  maxImageSize : Nat
  mediaExtensions : List String
  port : Nat
deriving Repr, DecidableEq

/-- There is a `users` row with the given id. -/
def userExists (db : DB) (i : Nat) : Bool :=
  db.users.any fun u => u.id == i

/-- There is a `tweets` row with the given id. -/
def tweetExists (db : DB) (i : Nat) : Bool :=
  db.tweets.any fun t => t.id == i

/-- There is a `subscribes` row with the given composite key. -/
def subscribeExists (db : DB) (f a : Nat) : Bool :=
  db.subscribes.any fun s => s.followerId == f && s.authorId == a

/-- There is a `likes` row with the given composite key. -/
def likeExists (db : DB) (u t : Nat) : Bool :=
  db.likes.any fun l => l.userId == u && l.tweetId == t

/-- Committing an insert of `Subscribe(follower_id=f, author_id=a)`
raises `IntegrityError`: duplicate composite primary key, or a foreign
key referencing a missing `users` row. -/
def subscribeInsertViolation (db : DB) (f a : Nat) : Bool :=
  subscribeExists db f a || !userExists db f || !userExists db a

/-- Committing an insert of `Like(user_id=u, tweet_id=t)` raises
`IntegrityError`: duplicate composite primary key, or a foreign key
referencing a missing `users` or `tweets` row. -/
def likeInsertViolation (db : DB) (u t : Nat) : Bool :=
  likeExists db u t || !userExists db u || !tweetExists db t

/-- `CrudController.add_subscribe` (crud.py lines 137-163): refuse a
self-subscription before touching storage, otherwise insert the row and
commit, turning an `IntegrityError` into a rollback and a `False`
result. -/
def add_subscribe (db : DB) (user_id author_id : Nat) : DB × Bool :=
  if user_id == author_id then
    (db, false)
  else if subscribeInsertViolation db user_id author_id then
    (db, false)
  else
    ({ db with subscribes := db.subscribes ++ [⟨user_id, author_id⟩] }, true)

/-- `CrudController.drop_subscribe` (crud.py lines 165-193): refuse a
self-unsubscription before touching storage, otherwise delete the
matching row and report whether the affected row count was nonzero. -/
def drop_subscribe (db : DB) (user_id author_id : Nat) : DB × Bool :=
  if user_id == author_id then
    (db, false)
  else
    let remaining := db.subscribes.filter fun s =>
      !(s.followerId == user_id && s.authorId == author_id)
    ({ db with subscribes := remaining },
      remaining.length != db.subscribes.length)

/-- `CrudController.create_like` (crud.py lines 318-340): insert the row
and commit, turning an `IntegrityError` into a rollback and a `False`
result. -/
def create_like (db : DB) (user_id tweet_id : Nat) : DB × Bool :=
  if likeInsertViolation db user_id tweet_id then
    (db, false)
  else
    ({ db with likes := db.likes ++ [⟨user_id, tweet_id⟩] }, true)

/-- `CrudController.remove_like` (crud.py lines 342-365): delete the
matching row and report whether the affected row count was nonzero. -/
def remove_like (db : DB) (user_id tweet_id : Nat) : DB × Bool :=
  let remaining := db.likes.filter fun l =>
    !(l.userId == user_id && l.tweetId == tweet_id)
  ({ db with likes := remaining },
    remaining.length != db.likes.length)

/-- The filename actually used by `add_media` (crud.py line 209:
`filename = media.filename or "."`): a missing or empty upload filename
is replaced by `"."`. -/
def effectiveFilename (filename : Option String) : String :=
  match filename with
  | none => "."
  | some s => if s == "" then "." else s

/-- Python's `str.split(".")` on the character list: split at every
dot, keeping empty parts ( `""` splits to `[""]`, `"."` to
`["", ""]` ). -/
def splitDot : List Char → List (List Char)
  | [] => [[]]
  | x :: xs =>
    if x = '.' then [] :: splitDot xs
    else
      match splitDot xs with
      | [] => [[x]]
      | y :: ys => (x :: y) :: ys

/-- Python's `filename.split(".")`. -/
def pySplitDot (s : String) : List String :=
  (splitDot s.toList).map fun cs => String.mk cs

/-- Python's `str.lower()` restricted to ASCII, which is all the
extension allow-list comparison needs. -/
def lowerStr (s : String) : String :=
  String.mk (s.toList.map Char.toLower)

/-- Number of `'.'` characters in a string. -/
def dotCount (s : String) : Nat :=
  s.toList.countP fun c => c == '.'

/-- The destructuring `_, file_type = filename.split(".")` (crud.py
line 210): succeeds exactly when the split yields two parts, and raises
`ValueError` (modelled by `none`) otherwise. -/
def splitFileType (s : String) : Option String :=
  match pySplitDot s with
  | [_, t] => some t
  | _ => none

/-- `CrudController.add_media` (crud.py lines 195-221): derive the file
type from the filename (raising `ValueError`, modelled by `none`, unless
the split yields exactly two parts), insert a `Media` row with null
`tweet_id`, commit (an `IntegrityError` from the `user_id` foreign key
escapes uncaught, also `none`), then store the bytes under
`{media_id}.{file_type}` and return the generated id. -/
def add_media (db : DB) (user_id : Nat) (filename : Option String) :
    Option (DB × Nat) :=
  match splitFileType (effectiveFilename filename) with
  | none => none
  | some ft =>
    if !userExists db user_id then none
    else
      let mid := db.nextMediaId
      some ({ db with
          medias := db.medias ++ [⟨mid, ft, user_id, none⟩],
          nextMediaId := mid + 1,
          files := db.files ++ [toString mid ++ "." ++ ft] }, mid)

/-- Last dot-separated segment of a filename, with the source's guard
(`dependencies.py` lines 262-264): `*others, extension = split(".")`,
and `extension` is reset to the empty string when `others` is empty. -/
def extensionOf (filename : String) : String :=
  let parts := pySplitDot filename
  if parts.length ≤ 1 then "" else parts.getLast!

/-- Extension part of `check_file` (`dependencies.py` lines 260-276):
the extension must be nonempty and its lowercasing must belong to the
configured allow-list. -/
def checkFileExtensionOk (supported : List String) (filename : String) : Bool :=
  let ext := extensionOf filename
  !(ext == "") && supported.contains (lowerStr ext)

/-- `check_file` (`dependencies.py` lines 230-282) as a predicate: the
upload passes validation (no 422) iff its size is known, positive and
within the configured bound, and its extension passes
`checkFileExtensionOk`. -/
def check_file (st : Settings) (size : Option Nat) (filename : String) : Bool :=
  (match size with
   | none => false
   | some n => !(n == 0) && n ≤ st.maxImageSize) &&
    checkFileExtensionOk st.mediaExtensions filename

/-- Return value of `add_tweet`: the `result` flag and the optional
`tweet_id` key of the returned dictionary. -/
structure AddTweetResult where
  result : Bool
  tweet_id : Option Nat
deriving Repr, DecidableEq

/-- The `tweet_id` the API reports for an `add_tweet` result: the
`TweetResult` response schema (`schemas.py`) defaults a missing
`tweet_id` key to `-1`. -/
def apiTweetId (r : AddTweetResult) : Int :=
  match r.tweet_id with
  | some t => (t : Int)
  | none => -1

/-- The filter of the media-claiming `update` in `add_tweet` (crud.py
lines 256-264): the row is owned by the caller, listed among the
candidate ids, and currently unattached. -/
def mediaClaimable (user_id : Nat) (ids : List Nat) (m : Media) : Bool :=
  m.userId == user_id && ids.contains m.id && m.tweetId == none

/-- `CrudController.add_tweet` (crud.py lines 223-275): insert the tweet
and flush to obtain its generated id (an `IntegrityError` from the
`author_id` foreign key escapes uncaught, modelled by `none`).  With no
candidate media ids, commit and return success.  Otherwise update every
`Media` row that is owned by the caller, listed, and unattached, setting
its `tweet_id`; if that affected zero rows, roll the whole transaction
back and return only `result = False`, else commit and return success
with the tweet id. -/
def add_tweet (db : DB) (user_id : Nat) (tweet_data : String)
    (tweet_media_ids : List Nat) : Option (DB × AddTweetResult) :=
  if !userExists db user_id then none
  else
    let tid := db.nextTweetId
    let tweet : Tweet := ⟨tid, tweet_data, user_id⟩
    if tweet_media_ids = [] then
      some ({ db with tweets := db.tweets ++ [tweet], nextTweetId := tid + 1 },
        ⟨true, some tid⟩)
    else if db.medias.countP (fun m => mediaClaimable user_id tweet_media_ids m) = 0 then
      some (db, ⟨false, none⟩)
    else
      some ({ db with
          tweets := db.tweets ++ [tweet],
          nextTweetId := tid + 1,
          medias := db.medias.map fun m =>
            if mediaClaimable user_id tweet_media_ids m then
              { m with tweetId := some tid }
            else m },
        ⟨true, some tid⟩)

/-- Database effect of `CrudController.remove_tweet` (crud.py lines
277-316): delete the tweet filtered by both id and author; when a row
was affected, commit, whereupon the `ondelete="CASCADE"` foreign keys
delete the attached `Media` rows and the tweet's `Like` rows; when no
row was affected, return `False` with nothing committed.  The
concurrently-issued media lookup and the stored-file removals are not
modelled here (their outcome depends on task interleaving, see the
accompanying results). -/
def remove_tweet (db : DB) (user_id tweet_id : Nat) : DB × Bool :=
  if db.tweets.any (fun t => t.id == tweet_id && t.authorId == user_id) then
    ({ db with
        tweets := db.tweets.filter fun t =>
          !(t.id == tweet_id && t.authorId == user_id),
        medias := db.medias.filter fun m => !(m.tweetId == some tweet_id),
        likes := db.likes.filter fun l => !(l.tweetId == tweet_id) }, true)
  else
    (db, false)

/-- `CrudController.get_by_id` specialised to `User` (crud.py lines
115-135): first row whose `id` column matches. -/
def get_by_id_user (db : DB) (i : Nat) : Option User :=
  db.users.find? fun u => u.id == i

/-- The `following` join of `get_full_user_info` (crud.py lines 91-95):
`select(User).join(Subscribe, User.id == Subscribe.author_id)
.filter(Subscribe.follower_id == user_id)`. -/
def joinFollowing (db : DB) (user_id : Nat) : List User :=
  (db.subscribes.filter fun s => s.followerId == user_id).flatMap
    fun s => db.users.filter fun u => u.id == s.authorId

/-- The `followers` join of `get_full_user_info` (crud.py lines
96-100): `select(User).join(Subscribe, User.id == Subscribe.follower_id)
.filter(Subscribe.author_id == user_id)`. -/
def joinFollowers (db : DB) (user_id : Nat) : List User :=
  (db.subscribes.filter fun s => s.authorId == user_id).flatMap
    fun s => db.users.filter fun u => u.id == s.followerId

/-- The dictionary `get_full_user_info` returns for a found user: the
user's own columns plus the two subscription joins. -/
structure FullUserInfo where
  id : Nat
  name : String
  keyId : Option Nat
  following : List User
  followers : List User
deriving Repr, DecidableEq

/-- `CrudController.get_full_user_info` (crud.py lines 67-113): use the
preloaded user if one was passed, otherwise look the id up; return `{}`
(modelled by `none`) when neither yields a user, and otherwise the
user's own fields with the `following` and `followers` join results. -/
def get_full_user_info (db : DB) (user_id : Nat) (user : Option User) :
    Option FullUserInfo :=
  match (match user with
         | some u => some u
         | none => get_by_id_user db user_id) with
  | none => none
  | some u =>
    some ⟨u.id, u.name, u.keyId, joinFollowing db user_id, joinFollowers db user_id⟩

/-- Components of the `media_url` argument of `get_tweets_info`
(a `starlette.datastructures.URL`): the fields the source reads. -/
structure UrlParts where
  scheme : String
  hostname : String
  port : Option Nat
  path : String
deriving Repr, DecidableEq

/-- A base URL rendered the way the spec's `{base}` reads: scheme,
hostname, the URL's own port when it has one, and path.  This definition
follows the spec's words, for comparison with what the source builds. -/
def specBaseUrl (url : UrlParts) : String :=
  url.scheme ++ "://" ++ url.hostname ++
    (match url.port with
     | some p => ":" ++ toString p
     | none => "") ++ url.path

/-- The attachment URL built in `get_tweets_info` (crud.py lines
422-427): scheme and hostname of the supplied URL, the port from
`SETTINGS.port`, the supplied URL's path, then `/{media_id}.{file_type}`. -/
def attachmentUrl (st : Settings) (url : UrlParts) (m : Media) : String :=
  url.scheme ++ "://" ++ url.hostname ++ ":" ++ toString st.port ++
    url.path ++ "/" ++ toString m.id ++ "." ++ m.fileType

/-- The subquery of `get_tweets_info` (crud.py lines 380-385): the
`Subscribe` rows in which the viewer appears on either side. -/
def subQuery (db : DB) (user_id : Nat) : List Subscribe :=
  db.subscribes.filter fun s =>
    s.followerId == user_id || s.authorId == user_id

/-- Left outer join against a list of matches: the matches themselves,
or a single null-extended row when there is no match. -/
def outerJoin {α : Type} (l : List α) : List (Option α) :=
  if l.isEmpty then [none] else l.map some

/-- The `WHERE` clause of the feed query (crud.py lines 392-397):
`sub.follower_id == user_id OR tweet.author_id == user_id`, evaluated
on a possibly null-extended subscribe row (a null row fails the first
disjunct, as SQL's null comparison does). -/
def feedWhere (user_id tweetAuthor : Nat) (s? : Option Subscribe) : Bool :=
  (match s? with
   | some s => s.followerId == user_id
   | none => false) || tweetAuthor == user_id

/-- The joined and filtered row set that one tweet contributes to the
feed query (crud.py lines 386-398): the tweet outer-joined with the
subquery rows matching its author and with its `Like` rows, restricted
by the `WHERE` clause. -/
def tweetGroupRows (db : DB) (user_id : Nat) (t : Tweet) :
    List (Option Subscribe × Option Like) :=
  ((outerJoin ((subQuery db user_id).filter fun s =>
      s.authorId == t.authorId)).flatMap fun s? =>
    (outerJoin (db.likes.filter fun l => l.tweetId == t.id)).map fun l? =>
      (s?, l?)).filter fun r => feedWhere user_id t.authorId r.1

/-- The `ORDER BY` key of the feed query: `count(Tweet.likes)` resolves
to the relationship's join condition `tweets.id == likes.tweet_id`, so
per `GROUP BY` group it counts the joined rows whose like side is
non-null. -/
def groupLikeCount (db : DB) (user_id : Nat) (t : Tweet) : Nat :=
  (tweetGroupRows db user_id t).countP fun r => r.2.isSome

/-- The tweets the feed query returns, in order: the tweets whose
grouped row set is nonempty (the `WHERE` clause kept at least one row),
sorted by descending group like-count.  SQL leaves the order among equal
keys unspecified; the embedding fixes one admissible order with a stable
insertion sort. -/
def feedTweets (db : DB) (user_id : Nat) : List Tweet :=
  (db.tweets.filter fun t => !(tweetGroupRows db user_id t).isEmpty).insertionSort
    fun a b => groupLikeCount db user_id b ≤ groupLikeCount db user_id a

/-- One entry of the `likes` list of an assembled tweet (crud.py lines
436-453): `like.to_dict()` (the two key columns) updated with the `name`
of the liking user, loaded through the `Like.user` relationship. -/
structure LikeOut where
  user_id : Nat
  tweet_id : Nat
  name : String
deriving Repr, DecidableEq

/-- One assembled tweet of the feed (crud.py lines 419-430):
`tweet.to_dict()` plus the resolved attachments, author and likes. -/
structure TweetOut where
  id : Nat
  content : String
  author_id : Nat
  attachments : List String
  author : Option User
  likes : List LikeOut
deriving Repr, DecidableEq

/-- The `Media` rows the `Tweet.medias` relationship loads for a
tweet. -/
def tweetMedias (db : DB) (t : Tweet) : List Media :=
  db.medias.filter fun m => m.tweetId == some t.id

/-- The `Like` rows the `Tweet.likes` relationship loads for a
tweet. -/
def tweetLikes (db : DB) (t : Tweet) : List Like :=
  db.likes.filter fun l => l.tweetId == t.id

/-- `CrudController._like_handler` for one tweet's like rows: each row's
columns plus the name of the liking user; when the `Like.user`
relationship loads no row the callback's attribute access raises
(modelled by `none`), and the error escapes `get_tweets_info`. -/
def likeOuts (db : DB) : List Like → Option (List LikeOut)
  | [] => some []
  | l :: ls =>
    match (db.users.find? fun u => u.id == l.userId), likeOuts db ls with
    | some u, some rest => some (⟨l.userId, l.tweetId, u.name⟩ :: rest)
    | _, _ => none

/-- The assembly loop of `get_tweets_info` (crud.py lines 403-433) over
an already ordered list of tweets. -/
def resolveTweets (st : Settings) (db : DB) (url : UrlParts) :
    List Tweet → Option (List TweetOut)
  | [] => some []
  | t :: ts =>
    match likeOuts db (tweetLikes db t), resolveTweets st db url ts with
    | some louts, some rest =>
      some ({ id := t.id, content := t.content, author_id := t.authorId,
              attachments := (tweetMedias db t).map (attachmentUrl st url),
              author := db.users.find? fun u => u.id == t.authorId,
              likes := louts } :: rest)
    | _, _ => none

/-- `CrudController.get_tweets_info` (crud.py lines 367-433): run the
feed query, then assemble each returned tweet's dictionary; a failing
per-like user lookup crashes the whole call (`none`). -/
def get_tweets_info (st : Settings) (db : DB) (user_id : Nat)
    (media_url : UrlParts) : Option (List TweetOut) :=
  resolveTweets st db media_url (feedTweets db user_id)

/-- One invocation of the data-access layer, with its arguments.
`seedUser` stands for the out-of-band user/api-key registration the spec
presumes (users are pre-seeded); every other constructor is a
`CrudController` mutation. -/
inductive Op where
  | seedUser (name : String)
  | addSubscribe (user_id author_id : Nat)
  | dropSubscribe (user_id author_id : Nat)
  | addMedia (user_id : Nat) (filename : Option String)
  | addTweet (user_id : Nat) (tweet_data : String) (tweet_media_ids : List Nat)
  | removeTweet (user_id tweet_id : Nat)
  | createLike (user_id tweet_id : Nat)
  | removeLike (user_id tweet_id : Nat)
deriving Repr, DecidableEq

/-- Registration of a new user with a generated id. -/
def seedUser (db : DB) (name : String) : DB :=
  { db with
      users := db.users ++ [⟨db.nextUserId, name, none⟩],
      nextUserId := db.nextUserId + 1 }

/-- The database state after one operation.  An operation that raises
(`none` result) leaves the database unchanged: its transaction is never
committed and is rolled back when the session closes. -/
def applyOp (op : Op) (db : DB) : DB :=
  match op with
  | .seedUser n => seedUser db n
  | .addSubscribe u a => (add_subscribe db u a).1
  | .dropSubscribe u a => (drop_subscribe db u a).1
  | .addMedia u f =>
    match add_media db u f with
    | some (d, _) => d
    | none => db
  | .addTweet u c ids =>
    match add_tweet db u c ids with
    | some (d, _) => d
    | none => db
  | .removeTweet u t => (remove_tweet db u t).1
  | .createLike u t => (create_like db u t).1
  | .removeLike u t => (remove_like db u t).1

/-- The freshly created database: empty tables, counters at 1. -/
def emptyDB : DB :=
  ⟨[], [], [], [], [], 1, 1, 1, []⟩

/-- States reachable from the fresh database through the data-access
layer. -/
inductive Reachable : DB → Prop where
  | init : Reachable emptyDB
  | step (op : Op) {db : DB} : Reachable db → Reachable (applyOp op db)

/-- Structural well-formedness every reachable state enjoys: primary
keys are unique, generated ids stay below their counters, and every
foreign key resolves. -/
structure WF (db : DB) : Prop where
  usersNodup : (db.users.map User.id).Nodup
  tweetsNodup : (db.tweets.map Tweet.id).Nodup
  mediasNodup : (db.medias.map Media.id).Nodup
  likesNodup : (db.likes.map fun l => (l.userId, l.tweetId)).Nodup
  subsNodup : (db.subscribes.map fun s => (s.followerId, s.authorId)).Nodup
  usersBound : ∀ u ∈ db.users, u.id < db.nextUserId
  tweetsBound : ∀ t ∈ db.tweets, t.id < db.nextTweetId
  mediasBound : ∀ m ∈ db.medias, m.id < db.nextMediaId
  tweetAuthorFK : ∀ t ∈ db.tweets, userExists db t.authorId = true
  mediaUserFK : ∀ m ∈ db.medias, userExists db m.userId = true
  mediaTweetFK : ∀ m ∈ db.medias, ∀ tid, m.tweetId = some tid →
    tweetExists db tid = true
  likeUserFK : ∀ l ∈ db.likes, userExists db l.userId = true
  likeTweetFK : ∀ l ∈ db.likes, tweetExists db l.tweetId = true
  subFollowerFK : ∀ s ∈ db.subscribes, userExists db s.followerId = true
  subAuthorFK : ∀ s ∈ db.subscribes, userExists db s.authorId = true

/-- Number of `Subscribe` rows with the given composite key. -/
def pairCountS (db : DB) (f a : Nat) : Nat :=
  db.subscribes.countP fun s => s.followerId == f && s.authorId == a

/-- Number of `Like` rows with the given composite key. -/
def pairCountL (db : DB) (u t : Nat) : Nat :=
  db.likes.countP fun l => l.userId == u && l.tweetId == t

/-- Number of `Like` rows on the given tweet id. -/
def likeCountOf (db : DB) (tid : Nat) : Nat :=
  db.likes.countP fun l => l.tweetId == tid

/-- Number of `Subscribe` rows naming the given user as author, i.e.
the user's follower count. -/
def followersCount (db : DB) (u : Nat) : Nat :=
  db.subscribes.countP fun s => s.authorId == u

/-- The key the feed query actually orders by, in closed form: the
tweet's like count for a followed author's tweet, and the like count
multiplied by `max (followers of the viewer) 1` for the viewer's own
tweets (the viewer's follower rows join onto their own tweets and
multiply the like rows). -/
def feedSortKey (db : DB) (u : Nat) (author_id tid : Nat) : Nat :=
  if author_id = u then max (followersCount db u) 1 * likeCountOf db tid
  else likeCountOf db tid

/-- A populated well-formed state used to instantiate the theorems:
viewer 1 is followed by 2, 3 and 4 and follows 5; tweet 10 is the
viewer's with one like, tweet 11 is 5's with two likes; media 5 is the
viewer's and attached to tweet 10, media 4 is user 2's and
unattached. -/
def dbW : DB :=
  { users := [⟨1, "ann", none⟩, ⟨2, "bob", none⟩, ⟨3, "cal", none⟩,
              ⟨4, "dee", none⟩, ⟨5, "eve", none⟩]
    tweets := [⟨10, "mine", 1⟩, ⟨11, "theirs", 5⟩]
    medias := [⟨5, "jpg", 1, some 10⟩, ⟨4, "png", 2, none⟩]
    likes := [⟨2, 10⟩, ⟨2, 11⟩, ⟨3, 11⟩]
    subscribes := [⟨2, 1⟩, ⟨3, 1⟩, ⟨4, 1⟩, ⟨1, 5⟩]
    nextUserId := 6, nextTweetId := 12, nextMediaId := 6
    files := ["5.jpg"] }

/-- `dbW` is well-formed. -/
theorem wf_dbW : WF dbW :=
  ⟨by decide, by decide, by decide, by decide, by decide, by decide,
   by decide, by decide, by decide, by decide, by decide, by decide,
   by decide, by decide, by decide⟩

/-- C4, counterexample to the claim as stated: the claim requires only
that the author exist, but when the follower id resolves to no `users`
row the insert violates the `follower_id` foreign key, so the first
`add_subscribe` call on an empty subscription table returns `False` and
persists nothing instead of returning `True` with one row. -/
theorem add_subscribe_missing_follower_counterexample :
    userExists ⟨[⟨2, "bob", none⟩], [], [], [], [], 3, 1, 1, []⟩ 2 = true ∧
    (1 : Nat) ≠ 2 ∧
    subscribeExists ⟨[⟨2, "bob", none⟩], [], [], [], [], 3, 1, 1, []⟩ 1 2 = false ∧
    add_subscribe ⟨[⟨2, "bob", none⟩], [], [], [], [], 3, 1, 1, []⟩ 1 2 =
      (⟨[⟨2, "bob", none⟩], [], [], [], [], 3, 1, 1, []⟩, false) := by
  decide

/-- C4 (amended): for distinct follower and author ids that both
resolve to `users` rows, `add_subscribe` with no existing edge returns
`True` and leaves exactly one `(follower, author)` row, and a repeated
call hits the composite-key constraint, rolls back, returns `False` and
leaves the state unchanged. -/
theorem add_subscribe_first_true_repeat_false (db : DB) (f a : Nat)
    (hf : userExists db f = true) (ha : userExists db a = true)
    (hne : f ≠ a) :
    (subscribeExists db f a = false →
      add_subscribe db f a =
        ({ db with subscribes := db.subscribes ++ [⟨f, a⟩] }, true) ∧
      pairCountS (add_subscribe db f a).1 f a = 1) ∧
    (subscribeExists db f a = true →
      add_subscribe db f a = (db, false)) := by
  have hba : (f == a) = false := by
    simp only [beq_eq_false_iff_ne, ne_eq]
    exact hne
  constructor
  · intro hex
    have hviol : subscribeInsertViolation db f a = false := by
      simp [subscribeInsertViolation, hex, hf, ha]
    have heq : add_subscribe db f a =
        ({ db with subscribes := db.subscribes ++ [⟨f, a⟩] }, true) := by
      simp [add_subscribe, hba, hviol]
    refine ⟨heq, ?_⟩
    have h0 : (db.subscribes.countP fun s =>
        s.followerId == f && s.authorId == a) = 0 := by
      rw [List.countP_eq_zero]
      intro s hs
      have hall : ∀ x ∈ db.subscribes, x.followerId = f → ¬x.authorId = a := by
        simpa [subscribeExists] using hex
      simp only [Bool.and_eq_true, beq_iff_eq, not_and]
      exact hall s hs
    simp [heq, pairCountS, List.countP_append, h0]
  · intro hex
    have hviol : subscribeInsertViolation db f a = true := by
      simp [subscribeInsertViolation, hex]
    simp [add_subscribe, hba, hviol]

/-- Witness for the amended C4 theorem at a concrete state: in `dbW`
user 2 subscribing to user 5 succeeds and leaves one row. -/
theorem add_subscribe_first_true_repeat_false_witness :
    add_subscribe dbW 2 5 =
      ({ dbW with subscribes := dbW.subscribes ++ [⟨2, 5⟩] }, true) ∧
    pairCountS (add_subscribe dbW 2 5).1 2 5 = 1 :=
  (add_subscribe_first_true_repeat_false dbW 2 5 (by decide) (by decide)
    (by decide)).1 (by decide)

/-- C5, counterexample to the claim as stated: the claim requires only
that the tweet exist, but when the liking user's id resolves to no
`users` row the insert violates the `user_id` foreign key, so the first
`create_like` call returns `False` and persists nothing instead of
returning `True` with one row. -/
theorem create_like_missing_user_counterexample :
    tweetExists ⟨[⟨2, "bob", none⟩], [⟨10, "x", 2⟩], [], [], [], 3, 11, 1, []⟩ 10 = true ∧
    likeExists ⟨[⟨2, "bob", none⟩], [⟨10, "x", 2⟩], [], [], [], 3, 11, 1, []⟩ 1 10 = false ∧
    create_like ⟨[⟨2, "bob", none⟩], [⟨10, "x", 2⟩], [], [], [], 3, 11, 1, []⟩ 1 10 =
      (⟨[⟨2, "bob", none⟩], [⟨10, "x", 2⟩], [], [], [], 3, 11, 1, []⟩, false) := by
  decide

/-- C5 (amended): for a user id and tweet id that both resolve to rows,
`create_like` with no existing like returns `True` and leaves exactly
one `(user, tweet)` row, and a repeated call hits the composite-key
constraint, rolls back, returns `False` and leaves the state
unchanged. -/
theorem create_like_first_true_repeat_false (db : DB) (u t : Nat)
    (hu : userExists db u = true) (ht : tweetExists db t = true) :
    (likeExists db u t = false →
      create_like db u t = ({ db with likes := db.likes ++ [⟨u, t⟩] }, true) ∧
      pairCountL (create_like db u t).1 u t = 1) ∧
    (likeExists db u t = true →
      create_like db u t = (db, false)) := by
  constructor
  · intro hex
    have hviol : likeInsertViolation db u t = false := by
      simp [likeInsertViolation, hex, hu, ht]
    have heq : create_like db u t =
        ({ db with likes := db.likes ++ [⟨u, t⟩] }, true) := by
      simp [create_like, hviol]
    refine ⟨heq, ?_⟩
    have h0 : (db.likes.countP fun l => l.userId == u && l.tweetId == t) = 0 := by
      rw [List.countP_eq_zero]
      intro l hl
      have hall : ∀ x ∈ db.likes, x.userId = u → ¬x.tweetId = t := by
        simpa [likeExists] using hex
      simp only [Bool.and_eq_true, beq_iff_eq, not_and]
      exact hall l hl
    simp [heq, pairCountL, List.countP_append, h0]
  · intro hex
    have hviol : likeInsertViolation db u t = true := by
      simp [likeInsertViolation, hex]
    simp [create_like, hviol]

/-- Witness for the amended C5 theorem at a concrete state: in `dbW`
user 4 liking tweet 10 succeeds and leaves one row. -/
theorem create_like_first_true_repeat_false_witness :
    create_like dbW 4 10 = ({ dbW with likes := dbW.likes ++ [⟨4, 10⟩] }, true) ∧
    pairCountL (create_like dbW 4 10).1 4 10 = 1 :=
  (create_like_first_true_repeat_false dbW 4 10 (by decide) (by decide)).1
    (by decide)


/-- Shape of a successful `add_media`: the filename split succeeded,
the user exists, and the state gained one unattached media row and one
stored file. -/
theorem add_media_some {db : DB} {u : Nat} {f : Option String} {d : DB} {i : Nat}
    (h : add_media db u f = some (d, i)) :
    ∃ ft, splitFileType (effectiveFilename f) = some ft ∧
      userExists db u = true ∧
      d = { db with
            medias := db.medias ++ [⟨db.nextMediaId, ft, u, none⟩],
            nextMediaId := db.nextMediaId + 1,
            files := db.files ++ [toString db.nextMediaId ++ "." ++ ft] } ∧
      i = db.nextMediaId := by
  unfold add_media at h
  cases hft : splitFileType (effectiveFilename f) with
  | none => rw [hft] at h; cases h
  | some ft =>
    rw [hft] at h
    cases hu : userExists db u with
    | false => rw [hu] at h; simp at h
    | true =>
      rw [hu] at h
      simp at h
      exact ⟨ft, rfl, rfl, h.1.symm, h.2.symm⟩

/-- The three possible states after a non-raising `add_tweet`: rolled
back, committed with just the tweet, or committed with the tweet and
the claimed media updates. -/
theorem add_tweet_some_shape {db : DB} {uid : Nat} {td : String}
    {ids : List Nat} {d : DB} {r : AddTweetResult}
    (h : add_tweet db uid td ids = some (d, r)) :
    d = db ∨
    d = { db with
          tweets := db.tweets ++ [⟨db.nextTweetId, td, uid⟩],
          nextTweetId := db.nextTweetId + 1 } ∨
    d = { db with
          tweets := db.tweets ++ [⟨db.nextTweetId, td, uid⟩],
          nextTweetId := db.nextTweetId + 1,
          medias := db.medias.map fun m =>
            if mediaClaimable uid ids m then
              { m with tweetId := some db.nextTweetId }
            else m } := by
  unfold add_tweet at h
  cases hu : userExists db uid with
  | false => rw [hu] at h; simp at h
  | true =>
    rw [hu] at h
    by_cases hids : ids = []
    · rw [if_pos hids] at h
      simp at h
      exact Or.inr (Or.inl h.1.symm)
    · rw [if_neg hids] at h  -- may need massaging of the Bool.not
      by_cases h0 : db.medias.countP (fun m => mediaClaimable uid ids m) = 0
      · rw [if_pos h0] at h
        simp at h
        exact Or.inl h.1.symm
      · rw [if_neg h0] at h
        simp at h
        exact Or.inr (Or.inr h.1.symm)

/-- Effect of any operation on the `subscribes` table: unchanged, one
non-self row appended, or rows deleted. -/
theorem applyOp_subscribes (op : Op) (db : DB) :
    (applyOp op db).subscribes = db.subscribes ∨
    (∃ u a, u ≠ a ∧ (applyOp op db).subscribes = db.subscribes ++ [⟨u, a⟩]) ∨
    (∃ p, (applyOp op db).subscribes = db.subscribes.filter p) := by
  cases op with
  | seedUser n => exact Or.inl rfl
  | addSubscribe u a =>
    simp only [applyOp]
    unfold add_subscribe
    by_cases hua : u = a
    · exact Or.inl (by simp [hua])
    · by_cases hviol : subscribeInsertViolation db u a = true
      · exact Or.inl (by simp [hua, hviol])
      · exact Or.inr (Or.inl ⟨u, a, hua, by simp [hua, hviol]⟩)
  | dropSubscribe u a =>
    simp only [applyOp]
    unfold drop_subscribe
    by_cases hua : u = a
    · exact Or.inl (by simp [hua])
    · exact Or.inr (Or.inr
        ⟨fun s => !(s.followerId == u && s.authorId == a), by simp [hua]⟩)
  | addMedia u f =>
    simp only [applyOp]
    cases hm : add_media db u f with
    | none => exact Or.inl rfl
    | some p =>
      obtain ⟨d, i⟩ := p
      obtain ⟨ft, hft, hu, hd, hi⟩ := add_media_some hm
      rw [hd]
      exact Or.inl rfl
  | addTweet u c ids =>
    simp only [applyOp]
    cases ht : add_tweet db u c ids with
    | none => exact Or.inl rfl
    | some p =>
      obtain ⟨d, r⟩ := p
      rcases add_tweet_some_shape ht with hd | hd | hd <;>
        (rw [hd]; exact Or.inl rfl)
  | removeTweet u t =>
    simp only [applyOp]
    unfold remove_tweet
    split <;> exact Or.inl rfl
  | createLike u t =>
    simp only [applyOp]
    unfold create_like
    split <;> exact Or.inl rfl
  | removeLike u t =>
    simp only [applyOp]
    unfold remove_like
    exact Or.inl rfl

/-- A step of the data-access layer never creates a self-subscription
row. -/
theorem noSelf_preserved (op : Op) (db : DB)
    (h : ∀ s ∈ db.subscribes, s.followerId ≠ s.authorId) :
    ∀ s ∈ (applyOp op db).subscribes, s.followerId ≠ s.authorId := by
  rcases applyOp_subscribes op db with heq | ⟨u, a, hua, heq⟩ | ⟨p, heq⟩
  · rw [heq]; exact h
  · rw [heq]
    intro s hs
    rcases List.mem_append.mp hs with hs | hs
    · exact h s hs
    · rw [List.mem_singleton] at hs
      subst hs
      exact hua
  · rw [heq]
    intro s hs
    exact h s (List.mem_filter.mp hs).1

/-- C7: `add_subscribe(x, x)` and `drop_subscribe(x, x)` return `False`
with the state untouched (the guard fires before any storage
operation), and consequently no reachable state holds a `Subscribe` row
whose follower equals its author. -/
theorem self_subscribe_rejected_and_never_persisted :
    (∀ (db : DB) (x : Nat), add_subscribe db x x = (db, false) ∧
      drop_subscribe db x x = (db, false)) ∧
    (∀ db : DB, Reachable db → ∀ s ∈ db.subscribes,
      s.followerId ≠ s.authorId) := by
  constructor
  · intro db x
    constructor
    · simp [add_subscribe]
    · simp [drop_subscribe]
  · intro db h
    induction h with
    | init => intro s hs; simp [emptyDB] at hs
    | step op hdb ih => exact noSelf_preserved op _ ih

/-- Witness for C7 at concrete inputs: the self-subscription rejection
at the empty state, and the invariant applied to the row ⟨1, 2⟩ of a
concrete reachable three-step state. -/
theorem self_subscribe_rejected_and_never_persisted_witness :
    add_subscribe emptyDB 0 0 = (emptyDB, false) ∧
    Subscribe.followerId ⟨1, 2⟩ ≠ Subscribe.authorId ⟨1, 2⟩ := by
  constructor
  · exact (self_subscribe_rejected_and_never_persisted.1 emptyDB 0).1
  · exact self_subscribe_rejected_and_never_persisted.2 _
      (Reachable.step (.addSubscribe 1 2)
        (Reachable.step (.seedUser "bob")
          (Reachable.step (.seedUser "ann") Reachable.init)))
      ⟨1, 2⟩ (by decide)

/-- Membership in the `following` join: exactly the users some
`Subscribe(follower_id = uid, author_id = user.id)` row points at. -/
theorem mem_joinFollowing {db : DB} {uid : Nat} {a : User} :
    a ∈ joinFollowing db uid ↔
      a ∈ db.users ∧ ∃ s ∈ db.subscribes,
        s.followerId = uid ∧ s.authorId = a.id := by
  simp only [joinFollowing, List.mem_flatMap, List.mem_filter, beq_iff_eq]
  constructor
  · rintro ⟨s, ⟨hs, hf⟩, ha, hid⟩
    exact ⟨ha, s, hs, hf, hid.symm⟩
  · rintro ⟨ha, s, hs, hf, hid⟩
    exact ⟨s, ⟨hs, hf⟩, ha, hid.symm⟩

/-- Membership in the `followers` join: exactly the users some
`Subscribe(follower_id = user.id, author_id = uid)` row points at. -/
theorem mem_joinFollowers {db : DB} {uid : Nat} {f : User} :
    f ∈ joinFollowers db uid ↔
      f ∈ db.users ∧ ∃ s ∈ db.subscribes,
        s.authorId = uid ∧ s.followerId = f.id := by
  simp only [joinFollowers, List.mem_flatMap, List.mem_filter, beq_iff_eq]
  constructor
  · rintro ⟨s, ⟨hs, hf⟩, ha, hid⟩
    exact ⟨ha, s, hs, hf, hid.symm⟩
  · rintro ⟨ha, s, hs, hf, hid⟩
    exact ⟨s, ⟨hs, hf⟩, ha, hid.symm⟩

/-- C8: with no preloaded user, `get_full_user_info` returns the empty
result for an id matching no `users` row, and for a found user returns
that user's own fields together with `following` and `followers` lists
whose members are exactly the users a persisted `Subscribe` row links
to the id, on the corresponding side. -/
theorem get_full_user_info_characterized (db : DB) (user_id : Nat) :
    ((∀ u ∈ db.users, u.id ≠ user_id) →
      get_full_user_info db user_id none = none) ∧
    (∀ u, get_by_id_user db user_id = some u →
      ∃ info, get_full_user_info db user_id none = some info ∧
        info.id = u.id ∧ info.name = u.name ∧ info.keyId = u.keyId ∧
        (∀ a, a ∈ info.following ↔
          a ∈ db.users ∧ ∃ s ∈ db.subscribes,
            s.followerId = user_id ∧ s.authorId = a.id) ∧
        (∀ f, f ∈ info.followers ↔
          f ∈ db.users ∧ ∃ s ∈ db.subscribes,
            s.authorId = user_id ∧ s.followerId = f.id)) := by
  constructor
  · intro h
    have hn : get_by_id_user db user_id = none := by
      rw [get_by_id_user, List.find?_eq_none]
      intro u hu
      simpa using h u hu
    simp [get_full_user_info, hn]
  · intro u hu
    refine ⟨⟨u.id, u.name, u.keyId, joinFollowing db user_id,
      joinFollowers db user_id⟩, ?_, rfl, rfl, rfl, ?_, ?_⟩
    · simp [get_full_user_info, hu]
    · intro a; exact mem_joinFollowing
    · intro f; exact mem_joinFollowers

/-- Witness for C8: in `dbW`, id 99 matches no user and yields the
empty result, while id 1 yields a populated result. -/
theorem get_full_user_info_characterized_witness :
    get_full_user_info dbW 99 none = none ∧
    (get_full_user_info dbW 1 none).isSome = true := by
  constructor
  · exact (get_full_user_info_characterized dbW 99).1 (by decide)
  · obtain ⟨info, hinfo, -⟩ :=
      (get_full_user_info_characterized dbW 1).2 ⟨1, "ann", none⟩ (by decide)
    rw [hinfo]
    rfl

/-- Length of the Python dot-split: one more part than there are
dots. -/
theorem splitDot_length (l : List Char) :
    (splitDot l).length = (l.countP fun c => c == '.') + 1 := by
  induction l with
  | nil => simp [splitDot]
  | cons x xs ih =>
    by_cases h : x = '.'
    · simp [splitDot, h, List.countP_cons, ih]
    · simp only [splitDot, if_neg h]
      cases hs : splitDot xs with
      | nil => simp [hs] at ih
      | cons y ys =>
        simp [List.countP_cons, h, hs] at ih ⊢
        omega

/-- String-level version of `splitDot_length`. -/
theorem pySplitDot_length (s : String) :
    (pySplitDot s).length = dotCount s + 1 := by
  simp [pySplitDot, dotCount, splitDot_length]

/-- The `add_media` destructuring succeeds exactly on strings with one
dot. -/
theorem splitFileType_isSome_iff (s : String) :
    (splitFileType s).isSome = true ↔ dotCount s = 1 := by
  have hlen := pySplitDot_length s
  unfold splitFileType
  cases h : pySplitDot s with
  | nil => rw [h] at hlen; simp at hlen
  | cons a rest =>
    cases rest with
    | nil =>
      rw [h] at hlen
      simp at hlen ⊢
      omega
    | cons b rest2 =>
      cases rest2 with
      | nil =>
        rw [h] at hlen
        simp at hlen ⊢
        omega
      | cons c rest3 =>
        rw [h] at hlen
        simp at hlen ⊢
        omega

/-- C10, counterexample to the trailing universal of the claim: an
uploaded empty filename is replaced by `"."` (crud.py line 209), whose
split yields two parts, so `add_media` runs to completion for a
filename that does not contain exactly one dot. -/
theorem add_media_empty_filename_counterexample :
    (add_media dbW 1 (some "")).isSome = true ∧ dotCount "" = 0 := by
  constructor
  · rfl
  · rfl

/-- C10 (amended): for an authenticated (existing) uploader, a filename
that passes `check_file` but contains more than one dot makes
`add_media` raise `ValueError` before anything is inserted or written
(the state is unchanged), and in general `add_media` runs to completion
exactly when the effective filename — the uploaded one, or `"."` for a
missing or empty name — contains exactly one dot. -/
theorem add_media_dot_behaviour (db : DB) (uid : Nat)
    (hu : userExists db uid = true) :
    (∀ st sz fn, check_file st sz fn = true → 1 < dotCount fn →
      add_media db uid (some fn) = none ∧
      applyOp (.addMedia uid (some fn)) db = db) ∧
    (∀ fn, (add_media db uid fn).isSome = true ↔
      dotCount (effectiveFilename fn) = 1) := by
  have hsplit : ∀ g, (add_media db uid g).isSome = true ↔
      dotCount (effectiveFilename g) = 1 := by
    intro g
    rw [← splitFileType_isSome_iff]
    unfold add_media
    cases hft : splitFileType (effectiveFilename g) with
    | none => simp
    | some ft => simp [hu]
  constructor
  · intro st sz fn hcf hdots
    have hne : fn ≠ "" := by
      intro he
      subst he
      simp [dotCount] at hdots
    have heff : effectiveFilename (some fn) = fn := by
      simp [effectiveFilename, hne]
    have hnone : add_media db uid (some fn) = none := by
      cases hm : add_media db uid (some fn) with
      | none => rfl
      | some p =>
        have : dotCount fn = 1 := by
          have := (hsplit (some fn)).mp (by rw [hm]; rfl)
          rwa [heff] at this
        omega
    refine ⟨hnone, ?_⟩
    simp only [applyOp, hnone]
  · exact hsplit

/-- Witness for the amended C10 theorem: `"a.b.jpg"` passes validation
yet raises, `"a.jpg"` completes. -/
theorem add_media_dot_behaviour_witness :
    add_media dbW 1 (some "a.b.jpg") = none ∧
    (add_media dbW 1 (some "a.jpg")).isSome = true := by
  constructor
  · exact ((add_media_dot_behaviour dbW 1 (by decide)).1
      ⟨1000000, ["png", "jpg"], 8000⟩ (some 5) "a.b.jpg"
      (by decide) (by decide)).1
  · exact ((add_media_dot_behaviour dbW 1 (by decide)).2
      (some "a.jpg")).mpr (by decide)

/-- C1, counterexample to the claim as stated: the claim quantifies
over every author id, but with an author id matching no `users` row the
flushed insert violates the `author_id` foreign key and the
`IntegrityError` escapes `add_tweet` uncaught (modelled by `none`), so
the empty-candidate-list call does not commit and return success. -/
theorem add_tweet_missing_author_counterexample :
    userExists emptyDB 1 = false ∧ add_tweet emptyDB 1 "hi" [] = none := by
  constructor
  · rfl
  · rfl

/-- C1 (amended): for an existing author: with an empty candidate list
`add_tweet` always commits and returns success with the generated id;
with a non-empty list and no owned, listed, unattached media row it
rolls the whole insertion back (state unchanged, no tweet with the
generated id exists, the API reports tweet_id -1); with at least one
such row it commits and returns success with the generated id. -/
theorem add_tweet_all_or_nothing (db : DB) (uid : Nat) (td : String)
    (ids : List Nat) (hwf : WF db) (hu : userExists db uid = true) :
    (ids = [] →
      add_tweet db uid td ids =
        some ({ db with
                tweets := db.tweets ++ [⟨db.nextTweetId, td, uid⟩],
                nextTweetId := db.nextTweetId + 1 },
          ⟨true, some db.nextTweetId⟩)) ∧
    (ids ≠ [] →
      ((∀ m ∈ db.medias, ¬(m.userId = uid ∧ m.id ∈ ids ∧ m.tweetId = none)) →
        add_tweet db uid td ids = some (db, ⟨false, none⟩) ∧
        apiTweetId ⟨false, none⟩ = -1 ∧
        ∀ t ∈ db.tweets, t.id ≠ db.nextTweetId) ∧
      ((∃ m ∈ db.medias, m.userId = uid ∧ m.id ∈ ids ∧ m.tweetId = none) →
        ∃ d, add_tweet db uid td ids = some (d, ⟨true, some db.nextTweetId⟩) ∧
          (⟨db.nextTweetId, td, uid⟩ : Tweet) ∈ d.tweets)) := by
  have hmc : ∀ m : Media, mediaClaimable uid ids m = true ↔
      m.userId = uid ∧ m.id ∈ ids ∧ m.tweetId = none := by
    intro m
    simp [mediaClaimable, and_assoc]
  constructor
  · intro hids
    subst hids
    simp [add_tweet, hu]
  · intro hids
    constructor
    · intro hnone
      have h0 : db.medias.countP (fun m => mediaClaimable uid ids m) = 0 := by
        rw [List.countP_eq_zero]
        intro m hm
        rw [hmc m]
        exact hnone m hm
      refine ⟨by simp [add_tweet, hu, hids, h0], rfl, ?_⟩
      intro t ht
      exact Nat.ne_of_lt (hwf.tweetsBound t ht)
    · intro hsome
      have h0 : db.medias.countP (fun m => mediaClaimable uid ids m) ≠ 0 := by
        rw [← Nat.pos_iff_ne_zero, List.countP_pos_iff]
        obtain ⟨m, hm, hrest⟩ := hsome
        exact ⟨m, hm, (hmc m).mpr hrest⟩
      refine ⟨{ db with
          tweets := db.tweets ++ [⟨db.nextTweetId, td, uid⟩],
          nextTweetId := db.nextTweetId + 1,
          medias := db.medias.map fun m =>
            if mediaClaimable uid ids m then
              { m with tweetId := some db.nextTweetId }
            else m }, ?_, ?_⟩
      · simp [add_tweet, hu, hids, h0]
      · exact List.mem_append_right _ (List.mem_singleton.mpr rfl)

/-- Witness for the amended C1 theorem: in `dbW`, an empty media list
commits, and claiming the already-attached media 5 rolls back. -/
theorem add_tweet_all_or_nothing_witness :
    add_tweet dbW 3 "hello" [] =
      some ({ dbW with
              tweets := dbW.tweets ++ [⟨dbW.nextTweetId, "hello", 3⟩],
              nextTweetId := dbW.nextTweetId + 1 },
        ⟨true, some dbW.nextTweetId⟩) ∧
    add_tweet dbW 1 "hello" [5] = some (dbW, ⟨false, none⟩) := by
  constructor
  · exact (add_tweet_all_or_nothing dbW 3 "hello" [] wf_dbW (by decide)).1 rfl
  · exact (((add_tweet_all_or_nothing dbW 1 "hello" [5] wf_dbW
      (by decide)).2 (by decide)).1 (by decide)).1

/-- The part of well-formedness the media-immutability claim rests on:
media primary keys are unique and stay below the id counter. -/
def MediaInv (db : DB) : Prop :=
  (db.medias.map Media.id).Nodup ∧ ∀ m ∈ db.medias, m.id < db.nextMediaId

/-- Effect of any operation on the `medias` table: unchanged, one fresh
unattached row appended, an id-preserving update that never touches an
attached row, or rows deleted. -/
theorem applyOp_medias (op : Op) (db : DB) :
    ((applyOp op db).medias = db.medias ∧
      (applyOp op db).nextMediaId = db.nextMediaId) ∨
    (∃ ft u, (applyOp op db).medias =
        db.medias ++ [⟨db.nextMediaId, ft, u, none⟩] ∧
      (applyOp op db).nextMediaId = db.nextMediaId + 1) ∨
    (∃ g : Media → Media, (applyOp op db).medias = db.medias.map g ∧
      (applyOp op db).nextMediaId = db.nextMediaId ∧
      (∀ m, (g m).id = m.id) ∧
      (∀ m t, m.tweetId = some t → g m = m)) ∨
    (∃ p, (applyOp op db).medias = db.medias.filter p ∧
      (applyOp op db).nextMediaId = db.nextMediaId) := by
  cases op with
  | seedUser n => exact Or.inl ⟨rfl, rfl⟩
  | addSubscribe u a =>
    refine Or.inl ?_
    simp only [applyOp]
    unfold add_subscribe
    split
    · exact ⟨rfl, rfl⟩
    · split
      · exact ⟨rfl, rfl⟩
      · exact ⟨rfl, rfl⟩
  | dropSubscribe u a =>
    refine Or.inl ?_
    simp only [applyOp]
    unfold drop_subscribe
    split
    · exact ⟨rfl, rfl⟩
    · exact ⟨rfl, rfl⟩
  | addMedia u f =>
    simp only [applyOp]
    cases hm : add_media db u f with
    | none => exact Or.inl ⟨rfl, rfl⟩
    | some p =>
      obtain ⟨d, i⟩ := p
      obtain ⟨ft, hft, hu, hd, hi⟩ := add_media_some hm
      rw [hd]
      exact Or.inr (Or.inl ⟨ft, u, rfl, rfl⟩)
  | addTweet u c ids =>
    simp only [applyOp]
    cases ht : add_tweet db u c ids with
    | none => exact Or.inl ⟨rfl, rfl⟩
    | some p =>
      obtain ⟨d, r⟩ := p
      rcases add_tweet_some_shape ht with hd | hd | hd
      · rw [hd]; exact Or.inl ⟨rfl, rfl⟩
      · rw [hd]; exact Or.inl ⟨rfl, rfl⟩
      · rw [hd]
        refine Or.inr (Or.inr (Or.inl ⟨_, rfl, rfl, ?_, ?_⟩))
        · intro m
          by_cases hc : mediaClaimable u ids m = true
          · simp [hc]
          · simp [hc]
        · intro m t hmt
          have hc : mediaClaimable u ids m = false := by
            simp [mediaClaimable, hmt]
          simp [hc]
  | removeTweet u t =>
    simp only [applyOp]
    unfold remove_tweet
    split
    · exact Or.inr (Or.inr (Or.inr ⟨_, rfl, rfl⟩))
    · exact Or.inl ⟨rfl, rfl⟩
  | createLike u t =>
    refine Or.inl ?_
    simp only [applyOp]
    unfold create_like
    split
    · exact ⟨rfl, rfl⟩
    · exact ⟨rfl, rfl⟩
  | removeLike u t => exact Or.inl ⟨rfl, rfl⟩

/-- Every operation preserves the media-table invariant. -/
theorem mediaInv_applyOp (op : Op) (db : DB) (h : MediaInv db) :
    MediaInv (applyOp op db) := by
  obtain ⟨hnd, hbd⟩ := h
  rcases applyOp_medias op db with ⟨he, hc⟩ | ⟨ft, u, he, hc⟩ |
    ⟨g, he, hc, hgid, hgsome⟩ | ⟨p, he, hc⟩
  · constructor
    · rw [he]; exact hnd
    · rw [he, hc]; exact hbd
  · constructor
    · rw [he, List.map_append]
      rw [List.nodup_append]
      refine ⟨hnd, List.nodup_singleton _, ?_⟩
      intro x hx hmem
      simp only [List.map_cons, List.map_nil, List.mem_singleton] at hmem
      obtain ⟨m, hm, hxm⟩ := List.mem_map.mp hx
      have := hbd m hm
      omega
    · rw [he, hc]
      intro m hm
      rcases List.mem_append.mp hm with h1 | h1
      · have := hbd m h1; omega
      · rw [List.mem_singleton] at h1
        subst h1
        exact Nat.lt_succ_self _
  · constructor
    · rw [he, List.map_map]
      have : (Media.id ∘ g) = Media.id := funext fun m => hgid m
      rw [this]
      exact hnd
    · rw [he, hc]
      intro m hm
      obtain ⟨m₀, hm₀, hgm⟩ := List.mem_map.mp hm
      have := hbd m₀ hm₀
      rw [← hgm]
      rw [hgid m₀]
      exact this
  · constructor
    · rw [he]
      exact ((db.medias.filter_sublist).map Media.id).nodup hnd
    · rw [he, hc]
      intro m hm
      exact hbd m (List.mem_filter.mp hm).1

/-- Every reachable state satisfies the media-table invariant. -/
theorem reachable_mediaInv {db : DB} (h : Reachable db) : MediaInv db := by
  induction h with
  | init => exact ⟨by simp [emptyDB], by simp [emptyDB]⟩
  | step op hdb ih => exact mediaInv_applyOp op _ ih

/-- C6: in every reachable state, no data-layer operation reassigns a
non-null `Media.tweet_id`: a row of the resulting state carrying the
same id as an attached row still carries the same `tweet_id` (when the
tweet is deleted, the cascade removes the row entirely rather than
reassigning it, and the claim holds vacuously for it). -/
theorem media_attachment_immutable (db : DB) (hr : Reachable db) (op : Op)
    (m : Media) (hm : m ∈ db.medias) (t : Nat) (ht : m.tweetId = some t) :
    ∀ m' ∈ (applyOp op db).medias, m'.id = m.id → m'.tweetId = some t := by
  obtain ⟨hnd, hbd⟩ := reachable_mediaInv hr
  intro m' hm' hid
  rcases applyOp_medias op db with ⟨he, -⟩ | ⟨ft, u, he, -⟩ |
    ⟨g, he, -, hgid, hgsome⟩ | ⟨p, he, -⟩
  · rw [he] at hm'
    have : m' = m := List.inj_on_of_nodup_map hnd hm' hm hid
    rw [this, ht]
  · rw [he] at hm'
    rcases List.mem_append.mp hm' with h1 | h1
    · have : m' = m := List.inj_on_of_nodup_map hnd h1 hm hid
      rw [this, ht]
    · rw [List.mem_singleton] at h1
      subst h1
      exact absurd hid (Nat.ne_of_gt (hbd m hm))
  · rw [he] at hm'
    obtain ⟨m₀, hm₀, hgm⟩ := List.mem_map.mp hm'
    have hid₀ : m₀.id = m.id := by
      rw [← hid, ← hgm, hgid m₀]
    have : m₀ = m := List.inj_on_of_nodup_map hnd hm₀ hm hid₀
    subst this
    rw [← hgm, hgsome m₀ t ht, ht]
  · rw [he] at hm'
    have : m' = m :=
      List.inj_on_of_nodup_map hnd (List.mem_of_mem_filter hm') hm hid
    rw [this, ht]

/-- Witness for C6: in a concrete reachable state where media 1 is
attached to tweet 1, a further `add_tweet` trying to claim it leaves it
attached to tweet 1. -/
theorem media_attachment_immutable_witness :
    Media.tweetId ⟨1, "jpg", 1, some 1⟩ = some 1 := by
  have hr : Reachable (applyOp (.addTweet 1 "hi" [1])
      (applyOp (.addMedia 1 (some "a.jpg"))
        (applyOp (.seedUser "ann") emptyDB))) :=
    Reachable.step _ (Reachable.step _ (Reachable.step _ Reachable.init))
  exact media_attachment_immutable _ hr (.addTweet 1 "again" [1])
    ⟨1, "jpg", 1, some 1⟩ (by decide) 1 rfl
    ⟨1, "jpg", 1, some 1⟩ (by decide) rfl

/-- Counting over a flatMap is the sum of the per-block counts. -/
theorem countP_flatMap_eq {α β : Type} (l : List α) (f : α → List β)
    (p : β → Bool) :
    (l.flatMap f).countP p = (l.map fun a => (f a).countP p).sum := by
  induction l with
  | nil => simp
  | cons x xs ih => simp [List.flatMap_cons, List.countP_append, ih]

/-- Summing `k` over the elements satisfying `Q` is `countP Q * k`. -/
theorem sum_map_ite {α : Type} (l : List α) (Q : α → Bool) (k : Nat) :
    (l.map fun a => if Q a then k else 0).sum = l.countP Q * k := by
  induction l with
  | nil => simp
  | cons x xs ih =>
    by_cases h : Q x = true
    · simp [h, ih, List.countP_cons, Nat.succ_mul]
      omega
    · simp [h, ih, List.countP_cons]

/-- An outer join block is never empty. -/
theorem outerJoin_ne_nil {α : Type} (l : List α) : outerJoin l ≠ [] := by
  unfold outerJoin
  split
  · simp
  · rename_i hl
    cases l with
    | nil => simp at hl
    | cons x xs => simp

/-- Membership in an outer join block. -/
theorem mem_outerJoin {α : Type} {l : List α} {x? : Option α} :
    x? ∈ outerJoin l ↔ (l = [] ∧ x? = none) ∨ ∃ x ∈ l, x? = some x := by
  unfold outerJoin
  split
  · rename_i hl
    rw [List.isEmpty_iff] at hl
    subst hl
    simp
  · rename_i hl
    rw [List.isEmpty_iff] at hl
    simp [hl, eq_comm]

/-- The non-null rows of an outer join block are exactly the matches. -/
theorem countP_isSome_outerJoin {α : Type} (l : List α) :
    (outerJoin l).countP (fun x? => x?.isSome) = l.length := by
  unfold outerJoin
  split
  · rename_i hl
    rw [List.isEmpty_iff] at hl
    subst hl
    simp
  · rw [List.countP_map]
    simp [Function.comp_def]

/-- Length of an outer join block. -/
theorem outerJoin_length {α : Type} (l : List α) :
    (outerJoin l).length = max l.length 1 := by
  unfold outerJoin
  split
  · rename_i h
    rw [List.isEmpty_iff] at h
    subst h
    simp
  · rename_i h
    cases l with
    | nil => simp at h
    | cons x xs => simp

/-- The group like-count factors as (rows passing the `WHERE` clause on
the subscribe side) times (like rows of the tweet). -/
theorem groupLikeCount_product (db : DB) (u : Nat) (t : Tweet) :
    groupLikeCount db u t =
      ((outerJoin ((subQuery db u).filter fun s =>
        s.authorId == t.authorId)).countP
          fun s? => feedWhere u t.authorId s?) *
      (db.likes.filter fun l => l.tweetId == t.id).length := by
  unfold groupLikeCount tweetGroupRows
  rw [List.countP_filter, countP_flatMap_eq]
  have hinner : ∀ s? ∈ outerJoin ((subQuery db u).filter fun s =>
      s.authorId == t.authorId),
      (((outerJoin (db.likes.filter fun l => l.tweetId == t.id)).map
        fun l? => (s?, l?)).countP fun r => r.2.isSome &&
          feedWhere u t.authorId r.1) =
      if feedWhere u t.authorId s? then
        (db.likes.filter fun l => l.tweetId == t.id).length
      else 0 := by
    intro s? hs
    rw [List.countP_map]
    by_cases hq : feedWhere u t.authorId s? = true
    · rw [if_pos hq]
      rw [← countP_isSome_outerJoin (db.likes.filter fun l => l.tweetId == t.id)]
      apply List.countP_congr
      intro l? hl
      simp [Function.comp_def, hq]
    · rw [if_neg hq]
      rw [List.countP_eq_zero]
      intro l? hl
      simp only [Function.comp_def, Bool.and_eq_true]
      rintro ⟨-, habs⟩
      exact hq habs
  rw [List.map_congr_left hinner, sum_map_ite]

/-- For the viewer's own tweet the `WHERE` clause keeps every joined
row, so the subscribe-side factor is the viewer's follower count (or 1
when the outer join null-extends). -/
theorem countQ_own (db : DB) (u : Nat) (t : Tweet) (hau : t.authorId = u) :
    ((outerJoin ((subQuery db u).filter fun s =>
      s.authorId == t.authorId)).countP
        fun s? => feedWhere u t.authorId s?) =
      max (followersCount db u) 1 := by
  have hlen : ((subQuery db u).filter fun s =>
      s.authorId == t.authorId).length = followersCount db u := by
    rw [← List.countP_eq_length_filter, subQuery, List.countP_filter]
    unfold followersCount
    apply List.countP_congr
    intro s hs
    rw [hau]
    cases h : s.authorId == u <;> simp [h]
  have hcp : ((outerJoin ((subQuery db u).filter fun s =>
      s.authorId == t.authorId)).countP
        fun s? => feedWhere u t.authorId s?) =
      (outerJoin ((subQuery db u).filter fun s =>
        s.authorId == t.authorId)).length := by
    rw [← List.countP_true]
    apply List.countP_congr
    intro s? hs
    simp [feedWhere, hau]
  rw [hcp, outerJoin_length, hlen]

/-- Under composite-key uniqueness there is at most one subscribe row
per (follower, author) pair. -/
theorem countP_pair_le_one (l : List Subscribe)
    (h : (l.map fun s => (s.followerId, s.authorId)).Nodup) (f a : Nat) :
    l.countP (fun s => s.followerId == f && s.authorId == a) ≤ 1 := by
  induction l with
  | nil => simp
  | cons x xs ih =>
    simp only [List.map_cons, List.nodup_cons] at h
    obtain ⟨hx, hxs⟩ := h
    rw [List.countP_cons]
    by_cases hp : (x.followerId == f && x.authorId == a) = true
    · have h1 : x.followerId = f ∧ x.authorId = a := by simpa using hp
      have h0 : xs.countP (fun s => s.followerId == f && s.authorId == a) = 0 := by
        rw [List.countP_eq_zero]
        intro s hs hps
        have h2 : s.followerId = f ∧ s.authorId = a := by simpa using hps
        apply hx
        rw [List.mem_map]
        exact ⟨s, hs, by rw [h1.1, h1.2, h2.1, h2.2]⟩
      simp [hp, h0]
    · simp [hp]
      exact ih hxs

/-- For a followed author's tweet the subscribe-side factor is exactly
one: the single `Subscribe(viewer, author)` row. -/
theorem countQ_other (db : DB) (u : Nat) (t : Tweet) (hau : t.authorId ≠ u)
    (hnd : (db.subscribes.map fun s => (s.followerId, s.authorId)).Nodup)
    (hex : ∃ s ∈ db.subscribes, s.followerId = u ∧ s.authorId = t.authorId) :
    ((outerJoin ((subQuery db u).filter fun s =>
      s.authorId == t.authorId)).countP
        fun s? => feedWhere u t.authorId s?) = 1 := by
  have hbe : (t.authorId == u) = false := by
    simp only [beq_eq_false_iff_ne, ne_eq]
    exact hau
  obtain ⟨s₀, hs₀, hf₀, ha₀⟩ := hex
  have hs₀S : s₀ ∈ (subQuery db u).filter fun s => s.authorId == t.authorId := by
    rw [List.mem_filter]
    refine ⟨?_, by simp [ha₀]⟩
    rw [subQuery, List.mem_filter]
    exact ⟨hs₀, by simp [hf₀]⟩
  have hSne : ((subQuery db u).filter fun s => s.authorId == t.authorId) ≠ [] :=
    List.ne_nil_of_mem hs₀S
  have hoj : outerJoin ((subQuery db u).filter fun s =>
      s.authorId == t.authorId) =
      ((subQuery db u).filter fun s => s.authorId == t.authorId).map some := by
    unfold outerJoin
    rw [if_neg]
    simpa [List.isEmpty_iff] using hSne
  rw [hoj, List.countP_map]
  have hcc : (((subQuery db u).filter fun s =>
      s.authorId == t.authorId).countP
        ((fun s? => feedWhere u t.authorId s?) ∘ some)) =
      db.subscribes.countP fun s =>
        s.followerId == u && s.authorId == t.authorId := by
    rw [subQuery, List.countP_filter, List.countP_filter]
    apply List.countP_congr
    intro s hs
    simp only [Function.comp_def, feedWhere, hbe, Bool.or_false]
    cases h1 : s.followerId == u <;> cases h2 : s.authorId == t.authorId <;>
      simp [h1, h2]
  rw [hcc]
  have hle := countP_pair_le_one db.subscribes hnd u t.authorId
  have hpos : 0 < db.subscribes.countP fun s =>
      s.followerId == u && s.authorId == t.authorId := by
    rw [List.countP_pos_iff]
    exact ⟨s₀, hs₀, by simp [hf₀, ha₀]⟩
  omega

/-- A tweet contributes rows to the feed exactly when the viewer is its
author or follows its author. -/
theorem tweetGroupRows_ne_nil_iff (db : DB) (u : Nat) (t : Tweet) :
    tweetGroupRows db u t ≠ [] ↔
      (t.authorId = u ∨ ∃ s ∈ db.subscribes,
        s.followerId = u ∧ s.authorId = t.authorId) := by
  unfold tweetGroupRows
  constructor
  · intro hne
    obtain ⟨r, hr⟩ := List.exists_mem_of_ne_nil _ hne
    rw [List.mem_filter] at hr
    obtain ⟨hrm, hrP⟩ := hr
    by_cases hau : t.authorId = u
    · exact Or.inl hau
    · right
      have hbe : (t.authorId == u) = false := by
        simp only [beq_eq_false_iff_ne, ne_eq]
        exact hau
      rw [List.mem_flatMap] at hrm
      obtain ⟨s?, hs?, hrin⟩ := hrm
      rw [List.mem_map] at hrin
      obtain ⟨l?, hl?, hrr⟩ := hrin
      subst hrr
      simp only [feedWhere, hbe, Bool.or_false] at hrP
      cases s? with
      | none => simp at hrP
      | some s =>
        rw [mem_outerJoin] at hs?
        rcases hs? with ⟨-, habs⟩ | ⟨s', hs', heq⟩
        · cases habs
        · have hss : s' = s := by
            injection heq.symm
          subst hss
          rw [List.mem_filter] at hs'
          obtain ⟨hsub, hsa⟩ := hs'
          rw [subQuery, List.mem_filter] at hsub
          exact ⟨s', hsub.1, by simpa using hrP, by simpa using hsa⟩
  · intro h
    obtain ⟨l?, hl?⟩ := List.exists_mem_of_ne_nil _
      (outerJoin_ne_nil (db.likes.filter fun l => l.tweetId == t.id))
    rcases h with hau | ⟨s, hs, hf, ha⟩
    · obtain ⟨s?, hs?⟩ := List.exists_mem_of_ne_nil _
        (outerJoin_ne_nil ((subQuery db u).filter fun s =>
          s.authorId == t.authorId))
      apply List.ne_nil_of_mem (a := (s?, l?))
      rw [List.mem_filter]
      constructor
      · rw [List.mem_flatMap]
        exact ⟨s?, hs?, List.mem_map.mpr ⟨l?, hl?, rfl⟩⟩
      · simp [feedWhere, hau]
    · have hsS : s ∈ (subQuery db u).filter fun s =>
          s.authorId == t.authorId := by
        rw [List.mem_filter]
        refine ⟨?_, by simp [ha]⟩
        rw [subQuery, List.mem_filter]
        exact ⟨hs, by simp [hf]⟩
      have hs? : some s ∈ outerJoin ((subQuery db u).filter fun s =>
          s.authorId == t.authorId) := by
        rw [mem_outerJoin]
        exact Or.inr ⟨s, hsS, rfl⟩
      apply List.ne_nil_of_mem (a := (some s, l?))
      rw [List.mem_filter]
      constructor
      · rw [List.mem_flatMap]
        exact ⟨some s, hs?, List.mem_map.mpr ⟨l?, hl?, rfl⟩⟩
      · simp [feedWhere, hf]

/-- Closed form of the key the feed orders by, for tweets the feed
returns: like count for a followed author's tweet, follower-inflated
like count for the viewer's own tweet. -/
theorem groupLikeCount_closed (db : DB) (u : Nat) (t : Tweet)
    (hnd : (db.subscribes.map fun s => (s.followerId, s.authorId)).Nodup)
    (hin : tweetGroupRows db u t ≠ []) :
    groupLikeCount db u t = feedSortKey db u t.authorId t.id := by
  have hlc : (db.likes.filter fun l => l.tweetId == t.id).length =
      likeCountOf db t.id := by
    rw [← List.countP_eq_length_filter]
    rfl
  rw [groupLikeCount_product, hlc]
  by_cases hau : t.authorId = u
  · rw [countQ_own db u t hau]
    unfold feedSortKey
    rw [if_pos hau]
  · have hex : ∃ s ∈ db.subscribes,
        s.followerId = u ∧ s.authorId = t.authorId := by
      rcases (tweetGroupRows_ne_nil_iff db u t).mp hin with h | h
      · exact absurd h hau
      · exact h
    rw [countQ_other db u t hau hnd hex]
    unfold feedSortKey
    rw [if_neg hau, Nat.one_mul]

/-- Membership in the ordered feed. -/
theorem mem_feedTweets {db : DB} {u : Nat} {t : Tweet} :
    t ∈ feedTweets db u ↔ t ∈ db.tweets ∧ tweetGroupRows db u t ≠ [] := by
  unfold feedTweets
  rw [List.mem_insertionSort, List.mem_filter]
  simp [List.isEmpty_iff]

/-- The feed is sorted by descending group like-count. -/
theorem feedTweets_sorted (db : DB) (u : Nat) :
    (feedTweets db u).Pairwise fun a b =>
      groupLikeCount db u b ≤ groupLikeCount db u a := by
  unfold feedTweets
  haveI : IsTotal Tweet (fun a b =>
      groupLikeCount db u b ≤ groupLikeCount db u a) :=
    ⟨fun a b => Nat.le_total (groupLikeCount db u b) (groupLikeCount db u a)⟩
  haveI : IsTrans Tweet (fun a b =>
      groupLikeCount db u b ≤ groupLikeCount db u a) :=
    ⟨fun a b c hab hbc => Nat.le_trans hbc hab⟩
  exact List.sorted_insertionSort _ _

/-- The feed lists each tweet id at most once. -/
theorem feedTweets_nodup (db : DB) (u : Nat)
    (h : (db.tweets.map Tweet.id).Nodup) :
    ((feedTweets db u).map Tweet.id).Nodup := by
  unfold feedTweets
  have hperm := List.perm_insertionSort (fun a b =>
      groupLikeCount db u b ≤ groupLikeCount db u a)
    (db.tweets.filter fun t => !(tweetGroupRows db u t).isEmpty)
  have hsub : ((db.tweets.filter fun t =>
      !(tweetGroupRows db u t).isEmpty).map Tweet.id).Nodup :=
    ((db.tweets.filter_sublist).map Tweet.id).nodup h
  exact ((hperm.map Tweet.id).nodup_iff).mpr hsub

/-- A lookup that `userExists` guarantees to succeed. -/
theorem find?_isSome_of_userExists {db : DB} {i : Nat}
    (h : userExists db i = true) :
    (db.users.find? fun usr => usr.id == i).isSome = true := by
  rw [List.find?_isSome]
  rw [userExists, List.any_eq_true] at h
  exact h

/-- `_like_handler` output for one tweet's like rows, when every liking
user resolves. -/
theorem likeOuts_eq_map (db : DB) (ls : List Like)
    (h : ∀ l ∈ ls, (db.users.find? fun usr =>
      usr.id == l.userId).isSome = true) :
    likeOuts db ls = some (ls.map fun l =>
      ⟨l.userId, l.tweetId,
        ((db.users.find? fun usr => usr.id == l.userId).map
          User.name).getD ""⟩) := by
  induction ls with
  | nil => rfl
  | cons l ls ih =>
    have h1 := h l (by simp)
    cases hf : db.users.find? fun usr => usr.id == l.userId with
    | none => rw [hf] at h1; cases h1
    | some usr =>
      unfold likeOuts
      rw [hf, ih fun x hx => h x (by simp [hx])]
      simp [hf]

/-- The assembly loop output, when every liking user resolves. -/
theorem resolveTweets_eq_map (st : Settings) (db : DB) (url : UrlParts)
    (ts : List Tweet)
    (h : ∀ t ∈ ts, ∀ l ∈ tweetLikes db t,
      (db.users.find? fun usr => usr.id == l.userId).isSome = true) :
    resolveTweets st db url ts = some (ts.map fun t =>
      { id := t.id, content := t.content, author_id := t.authorId,
        attachments := (tweetMedias db t).map (attachmentUrl st url),
        author := db.users.find? fun usr => usr.id == t.authorId,
        likes := (tweetLikes db t).map fun l =>
          ⟨l.userId, l.tweetId,
            ((db.users.find? fun usr => usr.id == l.userId).map
              User.name).getD ""⟩ }) := by
  induction ts with
  | nil => rfl
  | cons t ts ih =>
    unfold resolveTweets
    rw [likeOuts_eq_map db (tweetLikes db t) (h t (by simp)),
      ih fun x hx => h x (by simp [hx])]
    rfl

/-- Settings used to instantiate the feed theorems: port 8000, the
default extension allow-list. -/
def stW : Settings := ⟨1000000, ["png", "jpg"], 8000⟩

/-- A request base URL without an explicit port. -/
def urlW : UrlParts := ⟨"http", "test", none, "/api/medias"⟩

/-- A one-user state with one tweet carrying one attached media, for
the attachment-URL counterexample. -/
def dbP : DB :=
  { users := [⟨1, "ann", none⟩], tweets := [⟨10, "hi", 1⟩]
    medias := [⟨5, "jpg", 1, some 10⟩], likes := [], subscribes := []
    nextUserId := 2, nextTweetId := 11, nextMediaId := 6
    files := ["5.jpg"] }

/-- C3, counterexample to the claim as stated: in `dbW` the feed for
viewer 1 lists their own tweet 10 (one like, but three followers
inflating its key to 3) before tweet 11 (two likes, key 2), so the
output is not ordered by descending count of Like rows: the produced
order is not a descending-like-count order, and no tie-break could
make it one since 1 < 2 strictly. -/
theorem feed_order_not_by_like_count_counterexample :
    (get_tweets_info stW dbW 1 urlW).map (fun outs =>
      outs.map TweetOut.id) = some [10, 11] ∧
    likeCountOf dbW 10 = 1 ∧ likeCountOf dbW 11 = 2 ∧
    (get_tweets_info stW dbW 1 urlW).map (fun outs =>
      decide (outs.Pairwise fun a b =>
        likeCountOf dbW b.id ≤ likeCountOf dbW a.id)) = some false := by
  exact ⟨rfl, rfl, rfl, rfl⟩

/-- C3 (amended): for a well-formed state, `get_tweets_info` returns
exactly the tweets whose author the viewer follows or whose author is
the viewer, each exactly once, ordered by descending value of the key
`feedSortKey`: the tweet's like count for a followed author's tweet,
but `max(followers of the viewer, 1) * like count` for the viewer's own
tweets — the viewer's follower rows join onto their own tweets and
multiply the like rows, so the order deviates from pure like count. -/
theorem get_tweets_info_feed_characterized (st : Settings) (url : UrlParts)
    (db : DB) (u : Nat) (hwf : WF db) :
    ∃ outs, get_tweets_info st db u url = some outs ∧
      (outs.map TweetOut.id).Nodup ∧
      (∀ t ∈ db.tweets,
        ((t.authorId = u ∨ ∃ s ∈ db.subscribes,
          s.followerId = u ∧ s.authorId = t.authorId) ↔
          ∃ o ∈ outs, o.id = t.id)) ∧
      outs.Pairwise (fun a b =>
        feedSortKey db u b.author_id b.id ≤
          feedSortKey db u a.author_id a.id) := by
  have hlikes : ∀ t ∈ feedTweets db u, ∀ l ∈ tweetLikes db t,
      (db.users.find? fun usr => usr.id == l.userId).isSome = true := by
    intro t ht l hl
    exact find?_isSome_of_userExists
      (hwf.likeUserFK l (List.mem_filter.mp hl).1)
  refine ⟨_, resolveTweets_eq_map st db url _ hlikes, ?_, ?_, ?_⟩
  · rw [List.map_map]
    exact feedTweets_nodup db u hwf.tweetsNodup
  · intro t ht
    constructor
    · intro hcond
      have hrows : tweetGroupRows db u t ≠ [] :=
        (tweetGroupRows_ne_nil_iff db u t).mpr
          (by rcases hcond with h | h
              · exact Or.inl h
              · exact Or.inr h)
      have hfeed : t ∈ feedTweets db u := mem_feedTweets.mpr ⟨ht, hrows⟩
      exact ⟨_, List.mem_map_of_mem _ hfeed, rfl⟩
    · rintro ⟨o, ho, hid⟩
      rw [List.mem_map] at ho
      obtain ⟨t', ht', rfl⟩ := ho
      obtain ⟨ht'm, hrows'⟩ := mem_feedTweets.mp ht'
      have : t' = t :=
        List.inj_on_of_nodup_map hwf.tweetsNodup ht'm ht hid
      subst this
      rcases (tweetGroupRows_ne_nil_iff db u t').mp hrows' with h | h
      · exact Or.inl h
      · exact Or.inr h
  · rw [List.pairwise_map]
    refine (feedTweets_sorted db u).imp_of_mem ?_
    intro a b ha hb hab
    have hka := groupLikeCount_closed db u a hwf.subsNodup
      (mem_feedTweets.mp ha).2
    have hkb := groupLikeCount_closed db u b hwf.subsNodup
      (mem_feedTweets.mp hb).2
    show feedSortKey db u b.authorId b.id ≤ feedSortKey db u a.authorId a.id
    rw [← hka, ← hkb]
    exact hab

/-- Witness for the amended C3 theorem at `dbW`: its conclusion holds
at the concrete state, where the feed is `[10, 11]` with keys 3 and
2. -/
theorem get_tweets_info_feed_characterized_witness :
    (get_tweets_info stW dbW 1 urlW).isSome = true ∧
    (get_tweets_info stW dbW 1 urlW).map (fun outs =>
      outs.map TweetOut.id) = some [10, 11] ∧
    feedSortKey dbW 1 1 10 = 3 ∧ feedSortKey dbW 1 5 11 = 2 := by
  obtain ⟨outs, houts, -, -, -⟩ :=
    get_tweets_info_feed_characterized stW urlW dbW 1 wf_dbW
  exact ⟨by rw [houts]; rfl, rfl, rfl, rfl⟩

/-- C9, counterexample to the claim as stated: the attachment URL is
not `{base}/{media_id}.{file_type}` for the supplied base URL — the
code rebuilds the base with the configured port (`SETTINGS.port`,
crud.py lines 423-424), so for a base URL without that port the
produced URL differs from the claimed one. -/
theorem attachment_url_not_supplied_base_counterexample :
    (get_tweets_info stW dbP 1 urlW).map (fun outs =>
      outs.map TweetOut.attachments) =
      some [["http://test:8000/api/medias/5.jpg"]] ∧
    specBaseUrl urlW ++ "/" ++ toString 5 ++ "." ++ "jpg" =
      "http://test/api/medias/5.jpg" ∧
    ("http://test:8000/api/medias/5.jpg" : String) ≠
      "http://test/api/medias/5.jpg" := by
  exact ⟨rfl, rfl, by decide⟩

/-- C9 (amended): for every tweet of the assembled feed over a
well-formed state, the attachments list holds exactly one URL per Media
row attached to that tweet, formatted as
`{scheme}://{hostname}:{configured port}{path}/{media_id}.{file_type}`
— the supplied base URL with its port replaced by the configured port —
and the likes list holds one entry per Like row on the tweet, whose
`name` comes from the liking user's User record. -/
theorem get_tweets_info_assembly (st : Settings) (url : UrlParts)
    (db : DB) (u : Nat) (hwf : WF db) :
    ∃ outs, get_tweets_info st db u url = some outs ∧
      ∀ o ∈ outs,
        o.attachments = (db.medias.filter fun m =>
          m.tweetId == some o.id).map
            (fun m => url.scheme ++ "://" ++ url.hostname ++ ":" ++
              toString st.port ++ url.path ++ "/" ++ toString m.id ++
              "." ++ m.fileType) ∧
        o.likes.map LikeOut.user_id =
          (db.likes.filter fun l => l.tweetId == o.id).map Like.userId ∧
        ∀ lo ∈ o.likes, ∃ usr ∈ db.users,
          usr.id = lo.user_id ∧ usr.name = lo.name := by
  have hlikes : ∀ t ∈ feedTweets db u, ∀ l ∈ tweetLikes db t,
      (db.users.find? fun usr => usr.id == l.userId).isSome = true := by
    intro t ht l hl
    exact find?_isSome_of_userExists
      (hwf.likeUserFK l (List.mem_filter.mp hl).1)
  refine ⟨_, resolveTweets_eq_map st db url _ hlikes, ?_⟩
  intro o ho
  rw [List.mem_map] at ho
  obtain ⟨t, ht, rfl⟩ := ho
  refine ⟨rfl, ?_, ?_⟩
  · rw [List.map_map]
    rfl
  · intro lo hlo
    rw [List.mem_map] at hlo
    obtain ⟨l, hl, rfl⟩ := hlo
    have hsome := hlikes t ht l hl
    cases hf : db.users.find? fun usr => usr.id == l.userId with
    | none => rw [hf] at hsome; cases hsome
    | some usr =>
      refine ⟨usr, List.mem_of_find?_eq_some hf, ?_, ?_⟩
      · have := List.find?_some hf
        simpa using this
      · rfl

/-- Witness for the amended C9 theorem at `dbP`: the single attachment
of tweet 10 renders with the configured port 8000. -/
theorem get_tweets_info_assembly_witness :
    (get_tweets_info stW dbP 1 urlW).isSome = true ∧
    (get_tweets_info stW dbP 1 urlW).map (fun outs =>
      outs.map TweetOut.attachments) =
      some [["http://test:8000/api/medias/5.jpg"]] := by
  obtain ⟨outs, houts, -⟩ := get_tweets_info_assembly stW urlW dbP 1
    ⟨by decide, by decide, by decide, by decide, by decide, by decide,
     by decide, by decide, by decide, by decide, by decide, by decide,
     by decide, by decide, by decide⟩
  exact ⟨by rw [houts]; rfl, rfl⟩

end TweetsApi
